import Mathlib

/-!
Verification of the Agent-MCP coordination server specification against its
implementation.  Each section shallowly embeds the relevant Python functions
(from `agent_mcp/db/migrations`, `agent_mcp/tools`, `agent_mcp/core`) as
executable Lean definitions and proves or refutes the frozen claims about
them.  Machine integers are modeled as `Nat`/`Int`, SQL and Python floats as
`Rat` (all percentages computed by the code on the claim-relevant inputs are
exact), and fallible control flow as explicit outcome types.
-/

set_option maxHeartbeats 1000000

/-- A row of the `tasks` table, restricted to the columns the verified
functions read.  `parent_task` is nullable; `depends_on_tasks` is the decoded
JSON list.  Audit-only columns (`notes`, `child_tasks`, `priority`,
`created_by`) are elided because no verified claim inspects them. -/
structure TaskRow where
  task_id : String
  title : String := ""
  description : String := ""
  status : String := "pending"
  assigned_to : Option String := none
  parent_task : Option String := none
  depends_on_tasks : List String := []
  created_at : String := ""
deriving Repr, DecidableEq

/-- A row of the `schema_migrations` table. -/
structure MigRow where
  version : String
  appliedAt : String
deriving Repr, DecidableEq

/-- Database state visible to `MigrationManager`: the `schema_migrations`
rows, the `tasks` rows, and whether the tasks table has the `code_language`
column (the marker `_is_legacy_v1` probes with `PRAGMA table_info`). -/
structure DbState where
  schemaMigrations : List MigRow
  tasks : List TaskRow
  hasCodeLanguageColumn : Bool
deriving Repr, DecidableEq

/-- ASCII lower-casing of one character, as SQLite LIKE applies to both
operands by default. -/
def asciiLower (c : Char) : Char :=
  if 'A' ≤ c ∧ c ≤ 'Z' then Char.ofNat (c.toNat + 32) else c

/-- SQLite `task_id LIKE 'phase_%'`: five literal characters `phase`, then
`_` matching exactly one character, then `%` matching anything; SQLite LIKE
compares ASCII case-insensitively by default. -/
def likePhaseAnyChar (s : String) : Bool :=
  match s.data.map asciiLower with
  | 'p' :: 'h' :: 'a' :: 's' :: 'e' :: _ :: _ => true
  | _ => false

/-- Number of task rows matching `task_id LIKE 'phase_%'`
(migration_manager.py, `_is_legacy_v1`, first query). -/
def phaseLikeCount (db : DbState) : Nat :=
  (db.tasks.filter (fun t => likePhaseAnyChar t.task_id)).length

/-- `MigrationManager._is_legacy_v1`: returns True exactly when no
`phase_`-like task exists; the `has_code_support` branch and the plain branch
both return True, so the column probe never affects the result. -/
def isLegacyV1 (db : DbState) : Bool :=
  let hasCodeSupport := db.hasCodeLanguageColumn
  if phaseLikeCount db == 0 && hasCodeSupport then true
  else if phaseLikeCount db == 0 then true
  else false

/-- One comparison step of the latest-row scan: keep the row with the larger
`applied_at`. -/
def latestStep (acc : Option MigRow) (r : MigRow) : Option MigRow :=
  match acc with
  | none => some r
  | some b => if b.appliedAt < r.appliedAt then some r else some b

/-- `SELECT version FROM schema_migrations ORDER BY applied_at DESC LIMIT 1`:
the row with the largest `applied_at` (binary text collation; on ties SQLite
may return any maximal row, the embedding keeps the first). -/
def latestMigRow (rows : List MigRow) : Option MigRow :=
  rows.foldl latestStep none

/-- `MigrationManager._get_current_version`. -/
def getCurrentVersion (db : DbState) : Option String :=
  match latestMigRow db.schemaMigrations with
  | some r => some r.version
  | none => if isLegacyV1 db then some "1.0.0" else none

/-- Modelled from the spec wording of claim C1 (spec.md section 4.2,
"Version detection"), for comparison with `getCurrentVersion`: with no
migration rows, a `phase_` task implies `2.0.0`, else the code-support
column implies `1.1.0`, else `1.0.0`. -/
def versionDetectSpec (db : DbState) : Option String :=
  match latestMigRow db.schemaMigrations with
  | some r => some r.version
  | none =>
    if phaseLikeCount db != 0 then some "2.0.0"
    else if db.hasCodeLanguageColumn then some "1.1.0"
    else some "1.0.0"

/-- A database with no migration rows whose tasks table has the
`code_language` column: the spec heuristic infers 1.1.0 there. -/
def exDbC1 : DbState :=
  { schemaMigrations := [], tasks := [{ task_id := "t1" }], hasCodeLanguageColumn := true }

/-- A database with no migration rows that does contain a phase task: the
spec heuristic infers 2.0.0 there. -/
def exDbC1phase : DbState :=
  { schemaMigrations := [],
    tasks := [{ task_id := "phase_1_foundation" }],
    hasCodeLanguageColumn := true }

/-- C1 counterexample: on a legacy database with the code-support column the
code infers `1.0.0` where the claim says `1.1.0`, and on a database that
already contains a phase task the code infers no version at all where the
claim says `2.0.0`. -/
theorem C1_counterexample :
    getCurrentVersion exDbC1 = some "1.0.0" ∧
    versionDetectSpec exDbC1 = some "1.1.0" ∧
    getCurrentVersion exDbC1phase = none ∧
    versionDetectSpec exDbC1phase = some "2.0.0" := by
  refine ⟨by decide, by decide, by decide, by decide⟩

theorem foldl_latestStep_mem (rows : List MigRow) :
    ∀ acc r, rows.foldl latestStep acc = some r → acc = some r ∨ r ∈ rows := by
  induction rows with
  | nil => intro acc r h; exact Or.inl h
  | cons x xs ih =>
    intro acc r h
    rw [List.foldl_cons] at h
    rcases ih _ r h with h1 | h2
    · cases acc with
      | none =>
        simp only [latestStep] at h1
        exact Or.inr (by simp [Option.some.injEq] at h1; simp [h1])
      | some b =>
        simp only [latestStep] at h1
        split at h1
        · exact Or.inr (by simp [Option.some.injEq] at h1; simp [h1])
        · exact Or.inl h1
    · exact Or.inr (List.mem_cons_of_mem _ h2)

theorem foldl_latestStep_max (rows : List MigRow) :
    ∀ acc r, rows.foldl latestStep acc = some r →
      (∀ x ∈ rows, x.appliedAt ≤ r.appliedAt) ∧
      (∀ b, acc = some b → b.appliedAt ≤ r.appliedAt) := by
  induction rows with
  | nil =>
    intro acc r h
    refine ⟨by simp, ?_⟩
    intro b hb; rw [hb] at h; cases h; exact le_refl _
  | cons x xs ih =>
    intro acc r h
    rw [List.foldl_cons] at h
    have hrec := ih _ r h
    constructor
    · intro y hy
      rcases List.mem_cons.mp hy with rfl | hmem
      · cases acc with
        | none => exact hrec.2 y (by simp [latestStep])
        | some b =>
          by_cases hlt : b.appliedAt < y.appliedAt
          · exact hrec.2 y (by simp [latestStep, hlt])
          · exact le_trans (not_lt.mp hlt) (hrec.2 b (by simp [latestStep, hlt]))
      · exact hrec.1 y hmem
    · intro b hb
      subst hb
      by_cases hlt : b.appliedAt < x.appliedAt
      · exact le_trans (le_of_lt hlt) (hrec.2 x (by simp [latestStep, hlt]))
      · exact hrec.2 b (by simp [latestStep, hlt])

theorem foldl_latestStep_some (xs : List MigRow) :
    ∀ b : MigRow, ∃ r, xs.foldl latestStep (some b) = some r := by
  induction xs with
  | nil => intro b; exact ⟨b, rfl⟩
  | cons y ys ihy =>
    intro b
    rw [List.foldl_cons]
    by_cases hlt : b.appliedAt < y.appliedAt
    · simpa [latestStep, hlt] using ihy y
    · simpa [latestStep, hlt] using ihy b

theorem latestMigRow_isSome (rows : List MigRow) (h : rows ≠ []) :
    ∃ r, latestMigRow rows = some r := by
  unfold latestMigRow
  cases rows with
  | nil => exact absurd rfl h
  | cons x xs =>
    rw [List.foldl_cons]
    exact foldl_latestStep_some xs x

/-- C1 amended: if `schema_migrations` has rows, the version of a row with
maximal `applied_at` is current; otherwise the legacy heuristic infers
`1.0.0` exactly when no task matches `LIKE 'phase_%'`, irrespective of the
code-support column, and infers nothing (fresh database) when a phase task
exists. -/
theorem C1_amended_version_detection (db : DbState) :
    (db.schemaMigrations ≠ [] →
      ∃ r, r ∈ db.schemaMigrations ∧
        (∀ x ∈ db.schemaMigrations, x.appliedAt ≤ r.appliedAt) ∧
        getCurrentVersion db = some r.version) ∧
    (db.schemaMigrations = [] →
      getCurrentVersion db =
        (if phaseLikeCount db == 0 then some "1.0.0" else none)) := by
  constructor
  · intro hne
    obtain ⟨r, hr⟩ := latestMigRow_isSome db.schemaMigrations hne
    have hmem := foldl_latestStep_mem db.schemaMigrations none r hr
    have hmax := foldl_latestStep_max db.schemaMigrations none r hr
    refine ⟨r, ?_, hmax.1, ?_⟩
    · rcases hmem with h | h
      · cases h
      · exact h
    · unfold getCurrentVersion
      rw [hr]
  · intro hnil
    unfold getCurrentVersion latestMigRow isLegacyV1
    rw [hnil]
    simp only [List.foldl_nil]
    by_cases h : phaseLikeCount db == 0
    · simp [h]
    · simp [h]

/-- A database whose migration table holds two concrete rows, used only by
the C1 witness. -/
def exDbC1rows : DbState :=
  { schemaMigrations := [⟨"2.0.0", "2024-01-02"⟩, ⟨"1.1.0", "2024-01-01"⟩],
    tasks := [], hasCodeLanguageColumn := false }

/-- Witness for the amended C1 theorem at concrete databases: one with
migration rows, one empty-with-phase-task. -/
theorem C1_amended_witness :
    (∃ r, r ∈ exDbC1rows.schemaMigrations ∧
        (∀ x ∈ exDbC1rows.schemaMigrations, x.appliedAt ≤ r.appliedAt) ∧
        getCurrentVersion exDbC1rows = some r.version) ∧
    getCurrentVersion exDbC1phase = none := by
  constructor
  · exact (C1_amended_version_detection exDbC1rows).1 (by decide)
  · have h := (C1_amended_version_detection exDbC1phase).2 rfl
    rw [h]
    decide

/-!
Claim C6: `db_utils.retry_on_lock`.  An attempt either returns a value,
raises `sqlite3.OperationalError` with some message, or raises any other
exception.  Delays are modeled in `Rat`; the jitter factor drawn by
`random()` for each attempt is an arbitrary function `jit` (the code uses
`0.5 + random()`).
-/

/-- Outcome of one call to the wrapped function. -/
inductive AttemptOutcome where
  | ok (value : Nat)
  | opError (msg : String)
  | otherError
deriving Repr, DecidableEq

/-- What `retry_on_lock` itself does: return a value, re-raise an
OperationalError whose message lacks the locked marker, let a non-operational
exception propagate, or raise `DatabaseLockError` after exhausting retries. -/
inductive RetryResult where
  | success (value : Nat)
  | raisedOp (msg : String)
  | raisedOther
  | lockExhausted
deriving Repr, DecidableEq

/-- The `"database is locked" in str(e)` test. -/
def msgIsLocked (m : String) : Bool :=
  decide ("database is locked".data <:+: m.data)

/-- The loop body of `retry_on_lock`: `remaining` counts the iterations left
in `range(max_retries + 1)`, `attempt` the current index, `delay` the current
nominal backoff, `sleeps` the delays slept so far (reversed).  Running out of
iterations without returning reaches the final `raise DatabaseLockError`. -/
def retryLoop (attempts : Nat → AttemptOutcome) (jitter : Bool) (jit : Nat → ℚ)
    (maxRetries : Nat) (maxDelay backoff : ℚ) :
    Nat → Nat → ℚ → List ℚ → RetryResult × List ℚ
  | 0, _, _, sleeps => (.lockExhausted, sleeps.reverse)
  | rem + 1, attempt, delay, sleeps =>
    match attempts attempt with
    | .ok v => (.success v, sleeps.reverse)
    | .otherError => (.raisedOther, sleeps.reverse)
    | .opError m =>
      if msgIsLocked m = false then (.raisedOp m, sleeps.reverse)
      else if attempt = maxRetries then (.lockExhausted, sleeps.reverse)
      else
        let actual := if jitter then delay * jit attempt else delay
        retryLoop attempts jitter jit maxRetries maxDelay backoff
          rem (attempt + 1) (min (delay * backoff) maxDelay) (actual :: sleeps)

/-- `retry_on_lock` with its default parameters: `max_retries = 5`,
`initial_delay = 0.1`, `max_delay = 2.0`, `backoff_factor = 2.0`,
`jitter = True`. -/
def retryOnLock (attempts : Nat → AttemptOutcome) (jit : Nat → ℚ) :
    RetryResult × List ℚ :=
  retryLoop attempts true jit 5 2 2 6 0 (1/10) []

/-- Closed form of the nominal backoff before attempt `i`:
`min(0.1 * 2^i, 2.0)`. -/
def nominalDelay (i : Nat) : ℚ := min ((1/10) * 2 ^ i) 2

theorem nominalDelay_step (i : Nat) :
    min (nominalDelay i * 2) 2 = nominalDelay (i + 1) := by
  unfold nominalDelay
  rcases le_total ((1/10 : ℚ) * 2 ^ i) 2 with h | h
  · rw [min_eq_left h, pow_succ]
    ring_nf
  · rw [min_eq_right h, pow_succ]
    have h2 : (2 : ℚ) ≤ (1/10) * (2 ^ i * 2) := by nlinarith
    rw [min_eq_right h2]
    norm_num

theorem retryLoop_step_locked (attempts : Nat → AttemptOutcome) (jit : Nat → ℚ)
    (k : Nat) (hk : k < 5) (m : String)
    (hm : attempts k = .opError m) (hl : msgIsLocked m = true) (sleeps : List ℚ) :
    retryLoop attempts true jit 5 2 2 (6 - k) k (nominalDelay k) sleeps =
      retryLoop attempts true jit 5 2 2 (6 - (k + 1)) (k + 1) (nominalDelay (k + 1))
        (nominalDelay k * jit k :: sleeps) := by
  have h6 : 6 - k = (5 - k) + 1 := by omega
  have h5 : 6 - (k + 1) = 5 - k := by omega
  rw [h6, h5]
  simp only [retryLoop, hm, hl]
  rw [if_neg (by simp), if_neg (by omega)]
  rw [nominalDelay_step]
  simp

theorem retryOnLock_reaches (attempts : Nat → AttemptOutcome) (jit : Nat → ℚ) :
    ∀ k, k ≤ 5 →
      (∀ i, i < k → ∃ m, attempts i = .opError m ∧ msgIsLocked m = true) →
      retryOnLock attempts jit =
        retryLoop attempts true jit 5 2 2 (6 - k) k (nominalDelay k)
          (((List.range k).map (fun i => nominalDelay i * jit i)).reverse) := by
  intro k
  induction k with
  | zero =>
    intro _ _
    unfold retryOnLock nominalDelay
    norm_num
  | succ n ih =>
    intro hn hlock
    have hlt : n < 5 := by omega
    obtain ⟨m, hm, hl⟩ := hlock n (by omega)
    rw [ih (by omega) (fun i hi => hlock i (by omega))]
    rw [retryLoop_step_locked attempts jit n hlt m hm hl]
    congr 1
    rw [List.range_succ, List.map_append, List.reverse_append]
    simp

/-- C6: only `database is locked` OperationalErrors are retried, with the
exponential schedule base 0.1, multiplier 2, cap 2 (times the jitter factor
of each retry) and at most 5 retries; exhausting them raises the distinct
`DatabaseLockError`; a non-locked OperationalError re-raises immediately and
any other exception propagates uncaught, in both cases with no further
sleeping. -/
theorem C6_retry_on_lock (attempts : Nat → AttemptOutcome) (jit : Nat → ℚ) :
    ((∀ i, i ≤ 5 → ∃ m, attempts i = .opError m ∧ msgIsLocked m = true) →
      retryOnLock attempts jit =
        (.lockExhausted,
          [(1/10) * jit 0, (1/5) * jit 1, (2/5) * jit 2, (4/5) * jit 3,
            (8/5) * jit 4])) ∧
    (∀ k v, k ≤ 5 →
      (∀ i, i < k → ∃ m, attempts i = .opError m ∧ msgIsLocked m = true) →
      attempts k = .ok v →
      retryOnLock attempts jit =
        (.success v, (List.range k).map (fun i => nominalDelay i * jit i))) ∧
    (∀ k m, k ≤ 5 →
      (∀ i, i < k → ∃ m, attempts i = .opError m ∧ msgIsLocked m = true) →
      attempts k = .opError m → msgIsLocked m = false →
      retryOnLock attempts jit =
        (.raisedOp m, (List.range k).map (fun i => nominalDelay i * jit i))) ∧
    (∀ k, k ≤ 5 →
      (∀ i, i < k → ∃ m, attempts i = .opError m ∧ msgIsLocked m = true) →
      attempts k = .otherError →
      retryOnLock attempts jit =
        (.raisedOther, (List.range k).map (fun i => nominalDelay i * jit i))) := by
  refine ⟨?_, ?_, ?_, ?_⟩
  · intro hlock
    obtain ⟨m, hm, hl⟩ := hlock 5 (le_refl 5)
    rw [retryOnLock_reaches attempts jit 5 (le_refl 5) (fun i hi => hlock i (by omega))]
    show retryLoop attempts true jit 5 2 2 1 5 (nominalDelay 5) _ = _
    simp only [retryLoop, hm, hl]
    norm_num
    simp only [List.range_succ, List.range_zero, List.map_append, List.map_cons,
      List.map_nil, List.nil_append, List.cons_append, List.reverse_reverse]
    norm_num [nominalDelay, min_def]
  · intro k v hk hlock hok
    rw [retryOnLock_reaches attempts jit k hk hlock]
    have h6 : 6 - k = (5 - k) + 1 := by omega
    rw [h6]
    simp only [retryLoop, hok]
    rw [List.reverse_reverse]
  · intro k m hk hlock hop hnl
    rw [retryOnLock_reaches attempts jit k hk hlock]
    have h6 : 6 - k = (5 - k) + 1 := by omega
    rw [h6]
    simp only [retryLoop, hop, hnl]
    simp [List.reverse_reverse]
  · intro k hk hlock hother
    rw [retryOnLock_reaches attempts jit k hk hlock]
    have h6 : 6 - k = (5 - k) + 1 := by omega
    rw [h6]
    simp only [retryLoop, hother]
    rw [List.reverse_reverse]

/-- Witness for C6 at a concrete run: every attempt raises the locked error
with a unit jitter factor, exhausting all five retries with the exact
schedule 0.1, 0.2, 0.4, 0.8, 1.6 seconds. -/
theorem C6_retry_on_lock_witness :
    retryOnLock (fun _ => .opError "database is locked") (fun _ => 1) =
      (.lockExhausted, [1/10, 1/5, 2/5, 4/5, 8/5]) := by
  have h := (C6_retry_on_lock (fun _ => .opError "database is locked")
    (fun _ => 1)).1 (fun i _ => ⟨"database is locked", rfl, by decide⟩)
  simpa using h


/-!
Claims C2, C8 and C10: `tools/phase_management_tools.py`.  The embedding
starts after token verification and audit logging (authentication is out of
the claims' scope).  Query ordering clauses (`ORDER BY priority ...`) do not
affect any counted quantity and are dropped.
-/

/-- The root-task query of `_analyze_phase_completion`:
`WHERE parent_task = ? AND status != 'cancelled'` (SQL `=` is false on a
NULL parent). -/
def nonCancelledChildren (ts : List TaskRow) (pid : String) : List TaskRow :=
  ts.filter (fun t => t.parent_task == some pid && !(t.status == "cancelled"))

/-- One saturation step of the recursive CTE in
`_analyze_root_task_completion`: adjoin every non-cancelled task whose parent
is already in the tree. -/
def subtreeStep (ts : List TaskRow) (acc : List TaskRow) : List TaskRow :=
  acc ++ ts.filter (fun t =>
    !(t.status == "cancelled") &&
    (match t.parent_task with
      | some p => acc.any (fun a => a.task_id == p)
      | none => false) &&
    !(acc.any (fun a => a.task_id == t.task_id)))

/-- Iterated saturation. -/
def subtreeSat (ts : List TaskRow) : Nat → List TaskRow → List TaskRow
  | 0, acc => acc
  | n + 1, acc => subtreeSat ts n (subtreeStep ts acc)

/-- The `task_tree` recursive CTE: all non-cancelled tasks reachable from
`rootId` through `parent_task` edges passing only through non-cancelled
tasks.  The embedding saturates to a fixpoint (set semantics); this matches
the UNION ALL CTE whenever the parent relation below the root is acyclic —
on a cyclic input the SQL recursion would not terminate at all. -/
def subtreeRows (ts : List TaskRow) (rootId : String) : List TaskRow :=
  subtreeSat ts ts.length
    (ts.filter (fun t => !(t.status == "cancelled") && t.parent_task == some rootId))

/-- The comparison `completion_percentage == 100` the source performs on
`(c / n) * 100`: over the exact rationals this is `c/n*100 = 100`, phrased
through `mkRat (c * 100) n` — the identical rational number (see
`pctIsHundred_iff`) — so that the kernel can evaluate it. -/
def pctIsHundred (c n : Nat) : Bool := decide (mkRat (c * 100) n = 100)

theorem mkRat_hundred_eq (c n : Nat) :
    (mkRat (c * 100) n : ℚ) = (c : ℚ) / (n : ℚ) * 100 := by
  rw [Rat.mkRat_eq_div]
  push_cast
  ring

theorem pctIsHundred_iff (c n : Nat) :
    pctIsHundred c n = true ↔ (c : ℚ) / (n : ℚ) * 100 = 100 := by
  unfold pctIsHundred
  rw [decide_eq_true_eq, mkRat_hundred_eq]

/-- Result fields of `_analyze_root_task_completion`.  `completionPercentage`
is the unrounded value the code compares against 100; `round(..., 1)`
affects only the reported copy of the field. -/
structure RootAnalysis where
  totalSubtasks : Nat
  completedSubtasks : Nat
  completionPercentage : ℚ
  canComplete : Bool
  blockingCount : Nat
deriving Repr, DecidableEq

/-- `_analyze_root_task_completion`: with no subtasks the root is complete by
itself (percentage 100); otherwise the fraction of completed subtasks. -/
def analyzeRootTaskCompletion (ts : List TaskRow) (rootId : String) : RootAnalysis :=
  let subs := subtreeRows ts rootId
  if subs.isEmpty then
    { totalSubtasks := 0, completedSubtasks := 0, completionPercentage := 100,
      canComplete := true, blockingCount := 0 }
  else
    let n := subs.length
    let c := (subs.filter (fun t => t.status == "completed")).length
    { totalSubtasks := n, completedSubtasks := c,
      completionPercentage := (c : ℚ) / (n : ℚ) * 100,
      canComplete := pctIsHundred c n,
      blockingCount := (subs.filter (fun t =>
        !(t.status == "completed") && !(t.status == "cancelled"))).length }

/-- Result fields of `_analyze_phase_completion`. -/
structure PhaseAnalysis where
  totalRootTasks : Nat
  completedRootTasks : Nat
  completionPercentage : ℚ
  canAdvance : Bool
  blockingRootCount : Nat
  statusStr : String
deriving Repr, DecidableEq

/-- The condition under which `_analyze_phase_completion` counts a root task
as complete: all its subtasks complete and its own status `completed`
(task ids are primary-key unique, so the code's membership test over the
completed-status root id list is equivalent to its own status test). -/
def rootCountsComplete (ts : List TaskRow) (r : TaskRow) : Bool :=
  (analyzeRootTaskCompletion ts r.task_id).canComplete && (r.status == "completed")

/-- `_analyze_phase_completion`: the completion percentage is the fraction of
root tasks counted complete, not an average of per-root percentages.  For the
`in_progress` status test the code uses the rounded per-root percentage; the
embedding uses the exact one (they differ only when a positive percentage
rounds to 0.0, which needs over 2000 subtasks and touches no claim). -/
def analyzePhaseCompletion (ts : List TaskRow) (phaseId : String) : PhaseAnalysis :=
  let roots := nonCancelledChildren ts phaseId
  if roots.isEmpty then
    { totalRootTasks := 0, completedRootTasks := 0, completionPercentage := 0,
      canAdvance := false, blockingRootCount := 0, statusStr := "empty" }
  else
    let n := roots.length
    let c := (roots.filter (rootCountsComplete ts)).length
    { totalRootTasks := n, completedRootTasks := c,
      completionPercentage := (c : ℚ) / (n : ℚ) * 100,
      canAdvance := pctIsHundred c n,
      blockingRootCount := (roots.filter (fun r => !(rootCountsComplete ts r))).length,
      statusStr :=
        if pctIsHundred c n then "completed"
        else if 80 * n ≤ c * 100 then "near_completion"
        else if roots.any (fun r =>
            decide (0 < (analyzeRootTaskCompletion ts r.task_id).completedSubtasks) ||
            (subtreeRows ts r.task_id).isEmpty) then
          "in_progress"
        else if roots.any (fun r => r.status == "failed") then "blocked"
        else "pending" }

/-- The keys of the dict literal `_analyze_phase_completion` returns (both
the empty branch and the main branch return exactly this key set). -/
def analyzeCompletionKeys : List String :=
  ["phase_id", "total_root_tasks", "completed_root_tasks",
    "completion_percentage", "can_advance", "blocking_root_tasks",
    "root_task_details", "status"]

theorem nonCancelledChildren_isEmpty_false (ts : List TaskRow) (pid : String)
    (h : nonCancelledChildren ts pid ≠ []) :
    (nonCancelledChildren ts pid).isEmpty = false := by
  cases hcase : nonCancelledChildren ts pid with
  | nil => exact absurd hcase h
  | cons a l => rfl

theorem analyzePhase_pct (ts : List TaskRow) (phaseId : String)
    (h : nonCancelledChildren ts phaseId ≠ []) :
    (analyzePhaseCompletion ts phaseId).completionPercentage =
      (((nonCancelledChildren ts phaseId).filter (rootCountsComplete ts)).length : ℚ) /
        ((nonCancelledChildren ts phaseId).length : ℚ) * 100 := by
  unfold analyzePhaseCompletion
  simp only [nonCancelledChildren_isEmpty_false ts phaseId h, Bool.false_eq_true, if_false]

theorem analyzePhase_canAdvance (ts : List TaskRow) (phaseId : String)
    (h : nonCancelledChildren ts phaseId ≠ []) :
    (analyzePhaseCompletion ts phaseId).canAdvance =
      pctIsHundred
        ((nonCancelledChildren ts phaseId).filter (rootCountsComplete ts)).length
        (nonCancelledChildren ts phaseId).length := by
  unfold analyzePhaseCompletion
  simp only [nonCancelledChildren_isEmpty_false ts phaseId h, Bool.false_eq_true, if_false]

theorem subtreeRows_isEmpty_false (ts : List TaskRow) (rootId : String)
    (h : subtreeRows ts rootId ≠ []) :
    (subtreeRows ts rootId).isEmpty = false := by
  cases hcase : subtreeRows ts rootId with
  | nil => exact absurd hcase h
  | cons a l => rfl

theorem analyzeRoot_pct (ts : List TaskRow) (rootId : String)
    (h : subtreeRows ts rootId ≠ []) :
    (analyzeRootTaskCompletion ts rootId).completionPercentage =
      (((subtreeRows ts rootId).filter (fun t => t.status == "completed")).length : ℚ) /
        ((subtreeRows ts rootId).length : ℚ) * 100 := by
  unfold analyzeRootTaskCompletion
  simp only [subtreeRows_isEmpty_false ts rootId h, Bool.false_eq_true, if_false]

theorem analyzeRoot_of_empty (ts : List TaskRow) (rootId : String)
    (h : subtreeRows ts rootId = []) :
    analyzeRootTaskCompletion ts rootId =
      { totalSubtasks := 0, completedSubtasks := 0, completionPercentage := 100,
        canComplete := true, blockingCount := 0 } := by
  unfold analyzeRootTaskCompletion
  rw [h]
  rfl

/-- Modelled from the spec wording of claim C2, for comparison with
`analyzePhaseCompletion`: phase completion as the average of the workstream
children completion fractions. -/
def phaseCompletionSpecAvg (ts : List TaskRow) (phaseId : String) : ℚ :=
  let roots := nonCancelledChildren ts phaseId
  ((roots.map (fun r =>
      (analyzeRootTaskCompletion ts r.task_id).completionPercentage)).sum) /
    (roots.length : ℚ)

/-- Workstream row of the C2 example that is half done. -/
def exRowApi : TaskRow :=
  { task_id := "root_p1_api", status := "in_progress",
    parent_task := some "phase_1_foundation" }

/-- Workstream row of the C2 example that is completed with no subtasks. -/
def exRowDb : TaskRow :=
  { task_id := "root_p1_db", status := "completed",
    parent_task := some "phase_1_foundation" }

/-- Phase with two workstreams: one half-done (one of two subtasks complete),
one completed with no subtasks.  The code reports 50 percent, the averaging
formula of the claim gives 75. -/
def exTasksC2 : List TaskRow :=
  [ { task_id := "phase_1_foundation", status := "pending" },
    exRowApi,
    { task_id := "t1", status := "completed", parent_task := some "root_p1_api" },
    { task_id := "t2", status := "pending", parent_task := some "root_p1_api" },
    exRowDb ]

/-- C2 counterexample: on a concrete phase the computed completion (50) is
not the average of the workstream completion fractions (75). -/
theorem C2_counterexample :
    (analyzePhaseCompletion exTasksC2 "phase_1_foundation").completionPercentage = 50 ∧
    phaseCompletionSpecAvg exTasksC2 "phase_1_foundation" = 75 ∧
    (50 : ℚ) ≠ 75 := by
  refine ⟨?_, ?_, by norm_num⟩
  · rw [analyzePhase_pct exTasksC2 "phase_1_foundation" (by decide)]
    rw [show ((nonCancelledChildren exTasksC2 "phase_1_foundation").filter
        (rootCountsComplete exTasksC2)).length = 1 from by decide]
    rw [show (nonCancelledChildren exTasksC2 "phase_1_foundation").length = 2 from by decide]
    norm_num
  · unfold phaseCompletionSpecAvg
    rw [show nonCancelledChildren exTasksC2 "phase_1_foundation" =
      [exRowApi, exRowDb] from by decide]
    simp only [List.map_cons, List.map_nil, List.sum_cons, List.sum_nil,
      List.length_cons, List.length_nil]
    rw [show exRowApi.task_id = "root_p1_api" from rfl]
    rw [show exRowDb.task_id = "root_p1_db" from rfl]
    rw [analyzeRoot_pct exTasksC2 "root_p1_api" (by decide)]
    rw [analyzeRoot_of_empty exTasksC2 "root_p1_db" (by decide)]
    rw [show ((subtreeRows exTasksC2 "root_p1_api").filter
        (fun t => t.status == "completed")).length = 1 from by decide]
    rw [show (subtreeRows exTasksC2 "root_p1_api").length = 2 from by decide]
    norm_num

theorem length_filter_eq_iff {α : Type} (p : α → Bool) (l : List α) :
    ((l.filter p).length = l.length) ↔ (∀ a ∈ l, p a = true) := by
  induction l with
  | nil => simp
  | cons x xs ih =>
    by_cases h : p x = true
    · simp [List.filter_cons, h, ih]
    · have hle := List.length_filter_le p xs
      simp only [List.filter_cons, h, Bool.false_eq_true, if_false, List.length_cons]
      constructor
      · intro hlen; exfalso; omega
      · intro hall; exact absurd (hall x (List.mem_cons_self x xs)) (by simp [h])

/-- C2 amended: for a phase with at least one non-cancelled workstream child,
the computed completion is the fraction of children counted complete (own
status `completed` and every non-cancelled descendant subtask completed)
times 100 — not the average of the children completion fractions — and
`can_advance` holds iff every child is counted complete. -/
theorem C2_amended_rollup (ts : List TaskRow) (phaseId : String)
    (h : nonCancelledChildren ts phaseId ≠ []) :
    (analyzePhaseCompletion ts phaseId).completionPercentage =
      ((analyzePhaseCompletion ts phaseId).completedRootTasks : ℚ) /
        ((analyzePhaseCompletion ts phaseId).totalRootTasks : ℚ) * 100 ∧
    ((analyzePhaseCompletion ts phaseId).canAdvance = true ↔
      ∀ r ∈ nonCancelledChildren ts phaseId, rootCountsComplete ts r = true) := by
  have hn : 0 < (nonCancelledChildren ts phaseId).length := by
    cases hcase : nonCancelledChildren ts phaseId with
    | nil => exact absurd hcase h
    | cons a l => simp
  have hcast : ((nonCancelledChildren ts phaseId).length : ℚ) ≠ 0 := by
    exact_mod_cast hn.ne'
  constructor
  · rw [analyzePhase_pct ts phaseId h]
    unfold analyzePhaseCompletion
    simp only [nonCancelledChildren_isEmpty_false ts phaseId h, Bool.false_eq_true, if_false]
  · rw [analyzePhase_canAdvance ts phaseId h, pctIsHundred_iff]
    rw [div_mul_eq_mul_div, div_eq_iff hcast]
    rw [← length_filter_eq_iff (rootCountsComplete ts) (nonCancelledChildren ts phaseId)]
    constructor
    · intro heq
      have hq : (((nonCancelledChildren ts phaseId).filter
          (rootCountsComplete ts)).length : ℚ) =
          ((nonCancelledChildren ts phaseId).length : ℚ) := by linarith
      exact_mod_cast hq
    · intro heq
      rw [show (((nonCancelledChildren ts phaseId).filter
          (rootCountsComplete ts)).length : ℚ) =
          (((nonCancelledChildren ts phaseId).length : Nat) : ℚ) from by exact_mod_cast heq]
      ring

/-- Witness for the amended C2 rollup at the concrete C2 example phase. -/
theorem C2_amended_witness :
    (analyzePhaseCompletion exTasksC2 "phase_1_foundation").completionPercentage =
      ((analyzePhaseCompletion exTasksC2 "phase_1_foundation").completedRootTasks : ℚ) /
        ((analyzePhaseCompletion exTasksC2 "phase_1_foundation").totalRootTasks : ℚ) * 100 ∧
    ((analyzePhaseCompletion exTasksC2 "phase_1_foundation").canAdvance = true ↔
      ∀ r ∈ nonCancelledChildren exTasksC2 "phase_1_foundation",
        rootCountsComplete exTasksC2 r = true) :=
  C2_amended_rollup exTasksC2 "phase_1_foundation" (by decide)

/-- Result of `advance_phase_tool_impl` past authentication: either the
refusal branch (no write is performed) or the completion branch, which
updates the phase row status to `completed` and returns the committed tasks
table (note appending and `updated_at` bumping touch no claim and are
elided). -/
inductive AdvanceResult where
  | refused
  | completedPhase (newTasks : List TaskRow)
deriving Repr, DecidableEq

/-- `advance_phase_tool_impl`: refuse unless `force_advance` or the analysis
allows advancing; otherwise mark the phase row completed. -/
def advancePhase (ts : List TaskRow) (phaseId : String) (forceAdvance : Bool) :
    AdvanceResult :=
  let comp := analyzePhaseCompletion ts phaseId
  if !forceAdvance && !comp.canAdvance then .refused
  else .completedPhase (ts.map (fun t =>
    if t.task_id == phaseId then { t with status := "completed" } else t))

/-- One entry of `_get_phase_hierarchy` (ids, order, prerequisites; the
display strings play no role in the claims). -/
structure PhaseDef where
  phase_id : String
  order : Nat
  prerequisites : List String
deriving Repr, DecidableEq

/-- The fixed linear phase hierarchy. -/
def phaseHierarchy : List PhaseDef :=
  [ ⟨"phase_1_foundation", 1, []⟩,
    ⟨"phase_2_intelligence", 2, ["phase_1_foundation"]⟩,
    ⟨"phase_3_coordination", 3, ["phase_2_intelligence"]⟩,
    ⟨"phase_4_optimization", 4, ["phase_3_coordination"]⟩ ]

/-- Outcomes of `create_phase_tool_impl` past authentication. -/
inductive CreateOutcome where
  | invalidType
  | alreadyExists
  | conflictRefused (prereq : String)
  | unexpectedKeyError
  | created
deriving Repr, DecidableEq

/-- Python `phase_type in phase["phase_id"]`: substring containment. -/
def strContains (hay needle : String) : Bool := decide (needle.data <:+: hay.data)

/-- `create_phase_tool_impl`: select the first hierarchy entry whose id
contains `phase_type`; reject if the phase row already exists; walk the
prerequisites and, on the first one whose analysis does not allow advancing,
build the conflict message — which reads `completion['blocking_tasks']`, a
key absent from the analysis dict (`analyzeCompletionKeys`), so the message
construction raises KeyError and the generic exception handler rolls back
and returns an unexpected-error response; otherwise insert the phase row.
The second component is the tasks table after the call. -/
def createPhase (ts : List TaskRow) (phaseType : String) :
    CreateOutcome × List TaskRow :=
  match phaseHierarchy.find? (fun p => strContains p.phase_id phaseType) with
  | none => (.invalidType, ts)
  | some pd =>
    if ts.any (fun t => t.task_id == pd.phase_id) then (.alreadyExists, ts)
    else
      match pd.prerequisites.find?
          (fun pr => !(analyzePhaseCompletion ts pr).canAdvance) with
      | some pr =>
        if analyzeCompletionKeys.contains "blocking_tasks" then
          (.conflictRefused pr, ts)
        else (.unexpectedKeyError, ts)
      | none =>
        (.created, ts ++ [{ task_id := pd.phase_id, status := "pending",
                            parent_task := none,
                            depends_on_tasks := pd.prerequisites }])

/-- Failing input for C8: phase 1 exists with one pending root task, so it is
not 100 percent complete. -/
def exTasksC8 : List TaskRow :=
  [ { task_id := "phase_1_foundation", status := "pending" },
    { task_id := "w1", status := "pending",
      parent_task := some "phase_1_foundation" } ]

/-- C8 (code bug): calling `create_phase` for `phase_2_intelligence` while
phase 1 is incomplete does refuse to create the phase (no row inserted), but
not with the intended Conflict message: building that message reads the
missing dict key `blocking_tasks` (the analysis dict has only
`blocking_root_tasks`), so the tool raises KeyError and returns the generic
unexpected-error response. -/
theorem C8_create_phase_keyerror_bug :
    (analyzePhaseCompletion exTasksC8 "phase_1_foundation").canAdvance = false ∧
    analyzeCompletionKeys.contains "blocking_tasks" = false ∧
    createPhase exTasksC8 "intelligence" = (.unexpectedKeyError, exTasksC8) ∧
    ((createPhase exTasksC8 "intelligence").2.any
      (fun t => t.task_id == "phase_2_intelligence")) = false := by
  refine ⟨by decide, by decide, by decide, by decide⟩

/-- C10: every phase with zero non-cancelled direct children reports
completion 0 with `can_advance` false; `advance_phase` without force refuses
to mark it completed; and for every hierarchy phase that lists such an empty
phase among its prerequisites, `create_phase` never inserts the new phase
row (it fails through the KeyError path of the prerequisite refusal, or
reports the phase as already existing). -/
theorem C10_empty_phase_blocks (ts : List TaskRow) (p : String)
    (h : nonCancelledChildren ts p = []) :
    (analyzePhaseCompletion ts p).completionPercentage = 0 ∧
    (analyzePhaseCompletion ts p).canAdvance = false ∧
    advancePhase ts p false = .refused ∧
    (∀ phaseType pd,
      phaseHierarchy.find? (fun q => strContains q.phase_id phaseType) = some pd →
      p ∈ pd.prerequisites →
      (createPhase ts phaseType).1 ≠ .created ∧
      (createPhase ts phaseType).2 = ts) := by
  have hempty : (nonCancelledChildren ts p).isEmpty = true := by
    rw [h]; rfl
  have ha : analyzePhaseCompletion ts p =
      { totalRootTasks := 0, completedRootTasks := 0, completionPercentage := 0,
        canAdvance := false, blockingRootCount := 0, statusStr := "empty" } := by
    unfold analyzePhaseCompletion
    simp only [hempty, if_true]
  refine ⟨by rw [ha], by rw [ha], ?_, ?_⟩
  · unfold advancePhase
    rw [ha]
    simp
  · intro phaseType pd hfind hmem
    have hres : createPhase ts phaseType = (.alreadyExists, ts) ∨
        createPhase ts phaseType = (.unexpectedKeyError, ts) := by
      unfold createPhase
      rw [hfind]
      by_cases hex : ts.any (fun t => t.task_id == pd.phase_id) = true
      · left; simp [hex]
      · right
        simp only [Bool.not_eq_true] at hex
        cases hf : pd.prerequisites.find?
            (fun pr => !(analyzePhaseCompletion ts pr).canAdvance) with
        | none =>
          exfalso
          have hnone := List.find?_eq_none.mp hf p hmem
          apply hnone
          rw [ha]
          rfl
        | some pr =>
          simp [hex, hf,
            show analyzeCompletionKeys.contains "blocking_tasks" = false from by decide]
          decide
    rcases hres with hr | hr <;> rw [hr] <;> exact ⟨by simp, rfl⟩

/-- Witness for C10 at the empty tasks table, exercising two empty phases
and the successor pairs (1,2) and (2,3). -/
theorem C10_empty_phase_blocks_witness :
    ((analyzePhaseCompletion [] "phase_1_foundation").completionPercentage = 0 ∧
      (analyzePhaseCompletion [] "phase_1_foundation").canAdvance = false ∧
      advancePhase [] "phase_1_foundation" false = .refused ∧
      (createPhase [] "intelligence").1 ≠ .created ∧
      (createPhase [] "intelligence").2 = ([] : List TaskRow)) ∧
    ((createPhase [] "coordination").1 ≠ .created ∧
      (createPhase [] "coordination").2 = ([] : List TaskRow)) := by
  have h1 := C10_empty_phase_blocks [] "phase_1_foundation" rfl
  have h2 := C10_empty_phase_blocks [] "phase_2_intelligence" rfl
  have h12 := h1.2.2.2 "intelligence"
    ⟨"phase_2_intelligence", 2, ["phase_1_foundation"]⟩ (by decide) (by decide)
  have h23 := h2.2.2.2 "coordination"
    ⟨"phase_3_coordination", 3, ["phase_2_intelligence"]⟩ (by decide) (by decide)
  exact ⟨⟨h1.1, h1.2.1, h1.2.2.1, h12.1, h12.2⟩, h23⟩

/-!
Claim C4: the user-decline path of `MigrationManager._do_migration`.
-/

/-- Migration configuration switches read by `_do_migration`. -/
structure MigConfig where
  autoMigrate : Bool := true
  autoBackup : Bool := true
  interactive : Bool := true
deriving Repr, DecidableEq

/-- `MigrationManager._get_pending_migrations`. -/
def getPendingMigrations (currentVersion : Option String) : List String :=
  match currentVersion with
  | none => ["1.1.0", "2.0.0"]
  | some v =>
    if v == "1.0.0" then ["1.1.0", "2.0.0"]
    else if v == "1.1.0" then ["2.0.0"]
    else []

/-- Outcome of `_do_migration` as the process observes it: the coroutine
returns a Bool, or the process exits with the given status via `sys.exit`
(the SystemExit escapes the `except Exception` clause, and `cli_main`
re-raises it with the same code).  `applied` lists the versions recorded by
`_record_migration` before the outcome. -/
inductive MigOutcome where
  | returned (success : Bool) (applied : List String)
  | exited (code : Nat) (applied : List String)
deriving Repr, DecidableEq

/-- The migration loop of `_do_migration`: each successful migrator records
its version; the first failure stops the loop and returns False (the
restore prompt after a failure changes no recorded version). -/
def runMigrations (migOk : String → Bool) : List String → List String → MigOutcome
  | [], applied => .returned true applied.reverse
  | v :: rest, applied =>
    if migOk v then runMigrations migOk rest (v :: applied)
    else .returned false applied.reverse

/-- `MigrationManager._do_migration`, with the prompt answer and the
per-version migrator results supplied as oracles (`confirm` is the user's
answer, `migOk v` whether the migrator for `v` succeeds).  Backup files and
log writing touch no claim and are elided.  The decline branch is
`sys.exit(0)`. -/
def doMigration (cfg : MigConfig) (db : DbState) (isTTY confirm : Bool)
    (migOk : String → Bool) : MigOutcome :=
  if !cfg.autoMigrate then .returned true []
  else
    let current := getCurrentVersion db
    if current == some "2.0.0" then .returned true []
    else
      let pending := getPendingMigrations current
      if pending.isEmpty then .returned true []
      else if cfg.interactive && isTTY && !confirm then .exited 0 []
      else runMigrations migOk pending []

/-- A fresh legacy database: no migration rows, no tasks, no code column;
version detection yields 1.0.0 and both migrations are pending. -/
def exDbC4 : DbState :=
  { schemaMigrations := [], tasks := [], hasCodeLanguageColumn := false }

/-- C4 counterexample: with pending migrations, interactive mode and a TTY,
declining the prompt exits the process with status 0 — not status 2 as the
claim states — having applied no migration. -/
theorem C4_counterexample :
    doMigration {} exDbC4 true false (fun _ => true) = .exited 0 [] ∧
    MigOutcome.exited 0 [] ≠ .exited 2 [] := by
  exact ⟨by decide, by decide⟩

/-- C4 amended: whenever pending migrations exist, interactive mode is on and
a TTY is attached, declining the prompt makes the process exit immediately
with status 0 and no migration version is applied or recorded. -/
theorem C4_amended_decline_exit (cfg : MigConfig) (db : DbState)
    (migOk : String → Bool)
    (hauto : cfg.autoMigrate = true) (hint : cfg.interactive = true)
    (hnotcur : getCurrentVersion db ≠ some "2.0.0")
    (hpend : getPendingMigrations (getCurrentVersion db) ≠ []) :
    doMigration cfg db true false migOk = .exited 0 [] := by
  unfold doMigration
  have hbeq : (getCurrentVersion db == some "2.0.0") = false := by
    simpa using hnotcur
  have hpe : (getPendingMigrations (getCurrentVersion db)).isEmpty = false := by
    cases hc : getPendingMigrations (getCurrentVersion db) with
    | nil => exact absurd hc hpend
    | cons a l => rfl
  simp [hauto, hint, hbeq, hpe]

/-- Witness for the amended C4 theorem on the fresh legacy database. -/
theorem C4_amended_witness :
    doMigration {} exDbC4 true false (fun _ => false) = .exited 0 [] :=
  C4_amended_decline_exit {} exDbC4 (fun _ => false) rfl rfl
    (by decide) (by decide)

/-!
Claim C9: `check_and_migrate` always clears the `migration_in_progress` flag
and releases the `.migration.lock`, whatever the body does.
-/

/-- The two globals C9 tracks: the module-level `migration_in_progress` flag
and whether this process holds the advisory lock. -/
structure GateState where
  migrationInProgress : Bool
  lockHeld : Bool
deriving Repr, DecidableEq

/-- How `_do_migration` ends as seen from `check_and_migrate`: a normal
return (it catches its own exceptions and returns False) or the SystemExit
of the decline path, which no `except` clause in the function intercepts. -/
inductive BodyEnd where
  | ret (success : Bool)
  | sysExit (code : Nat)
deriving Repr, DecidableEq

/-- What the caller of `check_and_migrate` observes. -/
inductive CallEnd where
  | returns (success : Bool)
  | exits (code : Nat)
deriving Repr, DecidableEq

/-- `check_and_migrate` under `with migration_lock(...)`: on acquisition
failure the context manager raises RuntimeError, its `finally` release is a
no-op, and the `except RuntimeError` arm returns False with the flag never
set.  On success the flag is set True, the body runs, the inner `finally`
clears the flag, and the context manager `finally` releases the lock — in
the SystemExit case too, since both `finally` blocks run while the exception
unwinds. -/
def checkAndMigrate (acquireOk : Bool) (body : BodyEnd) (s : GateState) :
    CallEnd × GateState :=
  if !acquireOk then (.returns false, s)
  else
    let afterAcquire := { s with lockHeld := true }
    let afterFlagSet := { afterAcquire with migrationInProgress := true }
    let afterInnerFinally := { afterFlagSet with migrationInProgress := false }
    let afterLockRelease := { afterInnerFinally with lockHeld := false }
    match body with
    | .ret b => (.returns b, afterLockRelease)
    | .sysExit c => (.exits c, afterLockRelease)

/-- C9: from the initial process state (flag clear, lock free), every outcome
of `check_and_migrate` — lock timeout, normal success or failure, or a
SystemExit raised inside the body — leaves the flag False and the lock
released; the write path is never permanently gated and the advisory lock is
never left held. -/
theorem C9_flag_and_lock_released (acquireOk : Bool) (body : BodyEnd) :
    ((checkAndMigrate acquireOk body ⟨false, false⟩).2).migrationInProgress = false ∧
    ((checkAndMigrate acquireOk body ⟨false, false⟩).2).lockHeld = false ∧
    (acquireOk = false →
      (checkAndMigrate acquireOk body ⟨false, false⟩).1 = .returns false) := by
  cases acquireOk <;> cases body <;> simp [checkAndMigrate]

/-!
Claim C7: the workstream-creation loop of
`GranularMigrationManager._execute_granular_migration`.
-/

/-- A `workstream_mappings` entry: its phase, display title and the task rows
the plan assigns to this workstream. -/
structure WsInfo where
  phase_id : String
  title : String
  tasks : List TaskRow
deriving Repr, DecidableEq

/-- `_create_workstream_root`: initial status derived from the assigned task
statuses. -/
def wsStatus (tasks : List TaskRow) : String :=
  if tasks.isEmpty then "pending"
  else if tasks.all (fun t => t.status == "completed") then "completed"
  else if tasks.any (fun t => t.status == "in_progress") then "in_progress"
  else if tasks.any (fun t => t.status == "completed") then "in_progress"
  else "pending"

/-- The row `_create_workstream_root` inserts: parent is the phase. -/
def wsRowOf (p : String × WsInfo) : TaskRow :=
  { task_id := p.1, title := p.2.title, status := wsStatus p.2.tasks,
    parent_task := some p.2.phase_id }

/-- One iteration of the workstream-creation loop: insert the root task row
when the workstream has tasks (`len(...) > 0`), else count it skipped. -/
def execWsStep (st : List TaskRow × Nat × Nat) (p : String × WsInfo) :
    List TaskRow × Nat × Nat :=
  if 0 < p.2.tasks.length then (st.1 ++ [wsRowOf p], st.2.1 + 1, st.2.2)
  else (st.1, st.2.1, st.2.2 + 1)

/-- The workstream-creation loop of `_execute_granular_migration` over the
plan, returning the tasks table plus the created and skipped counters. -/
def execWorkstreamLoop (mappings : List (String × WsInfo)) (table : List TaskRow) :
    List TaskRow × Nat × Nat :=
  mappings.foldl execWsStep (table, 0, 0)

theorem execWs_characterize (ms : List (String × WsInfo)) :
    ∀ tbl cr sk, ms.foldl execWsStep (tbl, cr, sk) =
      (tbl ++ (ms.filter (fun p => decide (0 < p.2.tasks.length))).map wsRowOf,
        cr + (ms.filter (fun p => decide (0 < p.2.tasks.length))).length,
        sk + (ms.filter (fun p => !decide (0 < p.2.tasks.length))).length) := by
  induction ms with
  | nil => intro tbl cr sk; simp
  | cons p ms ih =>
    intro tbl cr sk
    rw [List.foldl_cons]
    by_cases h : 0 < p.2.tasks.length
    · simp only [execWsStep, if_pos h, ih, List.filter_cons, decide_eq_true h]
      refine congrArg₂ Prod.mk ?_ (congrArg₂ Prod.mk ?_ ?_)
      · simp [List.append_assoc]
      · simp; omega
      · simp
    · simp only [execWsStep, if_neg h, ih, List.filter_cons,
        decide_eq_false h, Bool.not_false]
      refine congrArg₂ Prod.mk ?_ (congrArg₂ Prod.mk ?_ ?_)
      · simp
      · simp
      · simp; omega

/-- C7: the apply step persists a workstream root row exactly for the
workstreams with at least one assigned task, and every row it adds to the
table comes from such a workstream — zero-task workstreams are dropped
(skipped), never inserted. -/
theorem C7_no_empty_workstream (mappings : List (String × WsInfo))
    (table : List TaskRow) :
    ((execWorkstreamLoop mappings table).1 =
      table ++ (mappings.filter (fun p => decide (0 < p.2.tasks.length))).map wsRowOf) ∧
    ((execWorkstreamLoop mappings table).2.1 =
      (mappings.filter (fun p => decide (0 < p.2.tasks.length))).length) ∧
    ((execWorkstreamLoop mappings table).2.2 =
      (mappings.filter (fun p => !decide (0 < p.2.tasks.length))).length) ∧
    (∀ r ∈ (execWorkstreamLoop mappings table).1, r ∉ table →
      ∃ info, (r.task_id, info) ∈ mappings ∧ 0 < info.tasks.length) := by
  have hchar := execWs_characterize mappings table 0 0
  unfold execWorkstreamLoop
  rw [hchar]
  refine ⟨rfl, by simp, by simp, ?_⟩
  intro r hr hnot
  rcases List.mem_append.mp hr with hin | hin
  · exact absurd hin hnot
  · obtain ⟨p, hp, hrp⟩ := List.mem_map.mp hin
    obtain ⟨hpm, hppos⟩ := List.mem_filter.mp hp
    refine ⟨p.2, ?_, by simpa using hppos⟩
    rw [← hrp]
    simpa [wsRowOf] using hpm

/-- Witness for C7: a plan with one one-task workstream and one empty
workstream; the loop inserts only the former. -/
theorem C7_no_empty_workstream_witness :
    ∃ info, ("root_phase_1_foundation_general", info) ∈
        [("root_phase_1_foundation_general",
            WsInfo.mk "phase_1_foundation" "General Tasks" [{ task_id := "t1" }]),
          ("root_phase_1_foundation_testing",
            WsInfo.mk "phase_1_foundation" "Testing Framework" [])] ∧
      0 < info.tasks.length := by
  refine (C7_no_empty_workstream
    [("root_phase_1_foundation_general",
        WsInfo.mk "phase_1_foundation" "General Tasks" [{ task_id := "t1" }]),
      ("root_phase_1_foundation_testing",
        WsInfo.mk "phase_1_foundation" "Testing Framework" [])] []).2.2.2
    (wsRowOf ("root_phase_1_foundation_general",
      WsInfo.mk "phase_1_foundation" "General Tasks" [{ task_id := "t1" }]))
    (by decide) (by simp)

/-!
Claim C5: `MigrationConfig.__init__` loads defaults, then the environment,
then the `.agent/migration.conf` file — so the file is applied last.
-/

/-- ASCII upper-casing of one character (Python `str.upper` on the ASCII
config keys). -/
def asciiUpper (c : Char) : Char :=
  if 'a' ≤ c ∧ c ≤ 'z' then Char.ofNat (c.toNat - 32) else c

/-- Lower-case a string (the config keys and values are ASCII). -/
def strLower (s : String) : String := ⟨s.data.map asciiLower⟩

/-- A configuration value: the defaults are booleans and integers only, so
the string fallback branch of the loaders is unreachable and not modeled. -/
inductive CVal where
  | b (v : Bool)
  | i (v : Int)
deriving Repr, DecidableEq

/-- `MigrationConfig.DEFAULTS`, in declaration order. -/
def cfgDefaults : List (String × CVal) :=
  [ ("auto_migrate", .b true),
    ("auto_backup", .b true),
    ("interactive", .b true),
    ("backup_retention_days", .i 7),
    ("preserve_hierarchies", .b true),
    ("consolidate_workstreams", .b true),
    ("min_tasks_per_workstream", .i 5),
    ("max_workstreams_per_phase", .i 7) ]

/-- Python `value.lower() in ('true', '1', 'yes', 'on')`. -/
def pyBoolOf (s : String) : Bool :=
  ["true", "1", "yes", "on"].contains (strLower s)

/-- Python `int(value)`, conservatively: surrounding whitespace stripped, an
optional minus sign, then decimal digits (CPython also accepts `+`,
underscores and unicode digits; no claim depends on those). -/
def pyIntOf (s : String) : Option Int :=
  match s.trim.data with
  | [] => none
  | '-' :: ds => if ds ≠ [] ∧ ds.all Char.isDigit then
      some (-(ds.foldl (fun a c => a * 10 + (c.toNat - 48)) 0 : Nat)) else none
  | ds => if ds.all Char.isDigit then
      some ((ds.foldl (fun a c => a * 10 + (c.toNat - 48)) 0 : Nat)) else none

/-- Reading `self.settings[k]` (an insertion-ordered dict). -/
def cfgGet (s : List (String × CVal)) (k : String) : Option CVal :=
  (s.find? (fun p => p.1 == k)).map Prod.snd

/-- Dict assignment `self.settings[k] = v`: replace the entry in place, or
append when the key is new. -/
def cfgSet (s : List (String × CVal)) (k : String) (v : CVal) :
    List (String × CVal) :=
  if s.any (fun p => p.1 == k) then
    s.map (fun p => if p.1 == k then (k, v) else p)
  else s ++ [(k, v)]

/-- Environment variable name for a config key. -/
def envKeyOf (k : String) : String :=
  "AGENT_MCP_MIGRATION_" ++ ⟨k.data.map asciiUpper⟩

/-- Store an environment value parsed by the type of the default: booleans
through `pyBoolOf`; integers through `pyIntOf`, keeping the current value
when unparsable. -/
def envApply (s : List (String × CVal)) (k : String) (dval : CVal)
    (ev : String) : List (String × CVal) :=
  match dval with
  | .b _ => cfgSet s k (.b (pyBoolOf ev))
  | .i _ =>
    match pyIntOf ev with
    | some n => cfgSet s k (.i n)
    | none => s

/-- One iteration of `_load_from_environment` for one `DEFAULTS` entry. -/
def envStep (env : String → Option String) (s : List (String × CVal))
    (k : String) (dval : CVal) : List (String × CVal) :=
  match env (envKeyOf k) with
  | none => s
  | some ev => envApply s k dval ev

/-- `_load_from_environment`: iterate over `DEFAULTS.items()`. -/
def loadFromEnvironment (env : String → Option String) :
    List (String × CVal) → List (String × CVal) → List (String × CVal)
  | [], s => s
  | (k, d) :: rest, s => loadFromEnvironment env rest (envStep env s k d)

/-- Python `line.split('=', 1)`: the text before the first equals sign and
everything after it; `none` when the line has no equals sign. -/
def splitFirstEq : List Char → Option (List Char × List Char)
  | [] => none
  | '=' :: rest => some ([], rest)
  | c :: rest => (splitFirstEq rest).map (fun p => (c :: p.1, p.2))

/-- Python `str.strip()` on ASCII text. -/
def trimChars (cs : List Char) : List Char :=
  ((cs.dropWhile Char.isWhitespace).reverse.dropWhile Char.isWhitespace).reverse

/-- Parse one `migration.conf` line as `_load_from_config_file` does: strip;
skip blanks and `#` comments; require an equals sign; lower-case and strip
the key, strip the value. -/
def parseConfLine (line : String) : Option (String × String) :=
  match trimChars line.data with
  | [] => none
  | c :: rest =>
    if c = '#' then none
    else
      match splitFirstEq (c :: rest) with
      | none => none
      | some (k, v) => some (⟨(trimChars k).map asciiLower⟩, ⟨trimChars v⟩)

/-- Apply one parsed config-file entry: only keys already in the settings are
accepted, parsed by the type of the current value. -/
def applyConfEntry (s : List (String × CVal)) (e : String × String) :
    List (String × CVal) :=
  match cfgGet s e.1 with
  | none => s
  | some (.b _) => cfgSet s e.1 (.b (pyBoolOf e.2))
  | some (.i _) =>
    match pyIntOf e.2 with
    | some n => cfgSet s e.1 (.i n)
    | none => s

/-- `_load_from_config_file` over the lines of `.agent/migration.conf`. -/
def loadFromConfigFile (confLines : List String) (s : List (String × CVal)) :
    List (String × CVal) :=
  (confLines.filterMap parseConfLine).foldl applyConfEntry s

/-- `MigrationConfig.__init__`: defaults, then environment, then config file
— the file is loaded last and overwrites. -/
def migrationConfigInit (env : String → Option String) (confLines : List String) :
    List (String × CVal) :=
  loadFromConfigFile confLines (loadFromEnvironment env cfgDefaults cfgDefaults)

/-- Modelled from the spec wording of claim C5, for comparison with
`migrationConfigInit`: environment variables take precedence over the config
file, which takes precedence over the defaults — that is, the environment
pass is applied last. -/
def migrationConfigInitSpec (env : String → Option String)
    (confLines : List String) : List (String × CVal) :=
  loadFromEnvironment env cfgDefaults (loadFromConfigFile confLines cfgDefaults)

/-- Environment for the C5 counterexample: `AUTO_BACKUP` is set to false. -/
def exEnvC5 : String → Option String :=
  fun k => if k == "AGENT_MCP_MIGRATION_AUTO_BACKUP" then some "false" else none

/-- Config file for the C5 counterexample: `auto_backup` is set to true. -/
def exConfC5 : List String := ["# backups", "auto_backup = true"]

/-- C5 counterexample: with `auto_backup` set both in the environment (false)
and in `migration.conf` (true), the value in effect is the file's — the
environment variable does not take precedence as the claim states (the
spec-ordered loader would give false). -/
theorem C5_counterexample :
    cfgGet (migrationConfigInit exEnvC5 exConfC5) "auto_backup" =
      some (.b true) ∧
    cfgGet (migrationConfigInitSpec exEnvC5 exConfC5) "auto_backup" =
      some (.b false) ∧
    some (CVal.b true) ≠ some (CVal.b false) := by
  refine ⟨by decide, by decide, by decide⟩


theorem find?_cfgSetMap_ne (k k' : String) (v : CVal) (h : ¬ (k' = k)) :
    ∀ s : List (String × CVal),
      (s.map (fun p => if p.1 == k then (k, v) else p)).find?
          (fun p => p.1 == k') =
        s.find? (fun p => p.1 == k') := by
  have hkk' : (k == k') = false :=
    beq_eq_false_iff_ne.mpr (fun hh => h hh.symm)
  intro s
  induction s with
  | nil => rfl
  | cons p ps ih =>
    simp only [List.map_cons]
    by_cases hp : (p.1 == k) = true
    · have hpk : p.1 = k := by simpa using hp
      rw [if_pos hp]
      rw [List.find?_cons_of_neg _ (by simpa using hkk'),
        List.find?_cons_of_neg _ (by simp [hpk, hkk']), ih]
    · rw [if_neg hp]
      by_cases hk' : (p.1 == k') = true
      · rw [List.find?_cons_of_pos _ (by simpa using hk'),
          List.find?_cons_of_pos _ (by simpa using hk')]
      · rw [List.find?_cons_of_neg _ (by simpa using hk'),
          List.find?_cons_of_neg _ (by simpa using hk'), ih]

theorem find?_append_ne (k k' : String) (v : CVal) (h : ¬ (k' = k)) :
    ∀ s : List (String × CVal),
      (s ++ [(k, v)]).find? (fun p => p.1 == k') =
        s.find? (fun p => p.1 == k') := by
  have hkk' : (k == k') = false :=
    beq_eq_false_iff_ne.mpr (fun hh => h hh.symm)
  intro s
  induction s with
  | nil =>
    simp only [List.nil_append, List.find?_nil]
    rw [List.find?_cons_of_neg _ (by simpa using hkk'), List.find?_nil]
  | cons p ps ih =>
    by_cases hk' : (p.1 == k') = true
    · rw [List.cons_append, List.find?_cons_of_pos _ (by simpa using hk'),
        List.find?_cons_of_pos _ (by simpa using hk')]
    · rw [List.cons_append, List.find?_cons_of_neg _ (by simpa using hk'),
        List.find?_cons_of_neg _ (by simpa using hk'), ih]

theorem find?_replace_eq (k : String) (v : CVal) :
    ∀ s : List (String × CVal), s.any (fun p => p.1 == k) = true →
      (s.map (fun p => if p.1 == k then (k, v) else p)).find?
          (fun p => p.1 == k) =
        some (k, v) := by
  intro s
  induction s with
  | nil => intro h; simp at h
  | cons p ps ih =>
    intro h
    simp only [List.map_cons]
    by_cases hp : (p.1 == k) = true
    · rw [if_pos hp]
      exact List.find?_cons_of_pos _ (by simp)
    · rw [if_neg hp]
      rw [List.find?_cons_of_neg _ (by simpa using hp)]
      apply ih
      simpa [List.any_cons, hp] using h

theorem find?_append_self (k : String) (v : CVal) :
    ∀ s : List (String × CVal), s.any (fun p => p.1 == k) = false →
      (s ++ [(k, v)]).find? (fun p => p.1 == k) = some (k, v) := by
  intro s
  induction s with
  | nil => intro _; exact List.find?_cons_of_pos _ (by simp)
  | cons p ps ih =>
    intro h
    simp only [List.any_cons, Bool.or_eq_false_iff] at h
    rw [List.cons_append, List.find?_cons_of_neg _ (by simp [h.1])]
    exact ih h.2

theorem cfgGet_cfgSet_eq (s : List (String × CVal)) (k : String) (v : CVal) :
    cfgGet (cfgSet s k v) k = some v := by
  unfold cfgGet cfgSet
  by_cases hany : s.any (fun p => p.1 == k) = true
  · rw [if_pos hany, find?_replace_eq k v s hany]
    rfl
  · rw [if_neg hany, find?_append_self k v s (Bool.eq_false_iff.mpr hany)]
    rfl

theorem cfgGet_cfgSet_ne (s : List (String × CVal)) (k k' : String) (v : CVal)
    (h : ¬ (k' = k)) : cfgGet (cfgSet s k v) k' = cfgGet s k' := by
  unfold cfgGet cfgSet
  by_cases hany : s.any (fun p => p.1 == k) = true
  · rw [if_pos hany, find?_cfgSetMap_ne k k' v h s]
  · rw [if_neg hany, find?_append_ne k k' v h s]

theorem envApply_cfgGet_ne (s : List (String × CVal)) (k k' : String)
    (d : CVal) (ev : String) (h : ¬ (k' = k)) :
    cfgGet (envApply s k d ev) k' = cfgGet s k' := by
  unfold envApply
  cases d with
  | b bv => exact cfgGet_cfgSet_ne s k k' _ h
  | i iv =>
    cases pyIntOf ev with
    | none => rfl
    | some n => exact cfgGet_cfgSet_ne s k k' _ h

theorem envStep_cfgGet_ne (env : String → Option String)
    (s : List (String × CVal)) (k k' : String) (d : CVal) (h : ¬ (k' = k)) :
    cfgGet (envStep env s k d) k' = cfgGet s k' := by
  unfold envStep
  cases env (envKeyOf k) with
  | none => rfl
  | some ev => exact envApply_cfgGet_ne s k k' d ev h

theorem loadEnv_cfgGet_notin (env : String → Option String) :
    ∀ (iter : List (String × CVal)) (s : List (String × CVal)) (k' : String),
      iter.all (fun p => !(p.1 == k')) = true →
      cfgGet (loadFromEnvironment env iter s) k' = cfgGet s k' := by
  intro iter
  induction iter with
  | nil => intro s k' _; rfl
  | cons p ps ih =>
    intro s k' h
    simp only [List.all_cons, Bool.and_eq_true, Bool.not_eq_true'] at h
    have hne : ¬ (k' = p.1) := by
      intro hh
      rw [hh] at h
      simp at h
    show cfgGet (loadFromEnvironment env ps (envStep env s p.1 p.2)) k' = _
    rw [ih _ k' h.2]
    exact envStep_cfgGet_ne env s p.1 k' p.2 hne


/-- How both loaders parse a raw string by the type of the current value:
booleans via `pyBoolOf`; integers via `pyIntOf`, keeping the current value
when unparsable. -/
def parsedByType (cur : CVal) (raw : String) : CVal :=
  match cur with
  | .b _ => .b (pyBoolOf raw)
  | .i iv =>
    match pyIntOf raw with
    | some n => .i n
    | none => .i iv

/-- The net effect of `_load_from_environment` on one configuration key with
default `d`: the parsed environment value when the variable is present (an
unparsable int keeps the default), else the default itself. -/
def envValueAt (env : String → Option String) (k : String) (d : CVal) : CVal :=
  match env (envKeyOf k) with
  | none => d
  | some ev => parsedByType d ev

/-- The net effect of the parsed config-file entries on one configuration
key currently holding `prior`: the entries addressing the key are applied in
file order, each parsed by the type of the current value (an unparsable int
keeps it), so the last effective entry wins. -/
def confValueAt (entries : List (String × String)) (k : String)
    (prior : CVal) : CVal :=
  entries.foldl
    (fun cur e => if e.1 = k then parsedByType cur e.2 else cur)
    prior

theorem confValueAt_cons_eq (e : String × String) (es : List (String × String))
    (cur : CVal) :
    confValueAt (e :: es) e.1 cur = confValueAt es e.1 (parsedByType cur e.2) := by
  unfold confValueAt
  rw [List.foldl_cons, if_pos rfl]

theorem confValueAt_cons_ne (e : String × String) (es : List (String × String))
    (k : String) (cur : CVal) (h : ¬ (e.1 = k)) :
    confValueAt (e :: es) k cur = confValueAt es k cur := by
  unfold confValueAt
  rw [List.foldl_cons, if_neg h]

theorem envApply_cfgGet_eq (s : List (String × CVal)) (k : String) (d : CVal)
    (ev : String) (hcur : cfgGet s k = some d) :
    cfgGet (envApply s k d ev) k = some (parsedByType d ev) := by
  unfold envApply parsedByType
  cases d with
  | b bv => exact cfgGet_cfgSet_eq s k _
  | i iv =>
    cases hpi : pyIntOf ev with
    | none => exact hcur
    | some n => exact cfgGet_cfgSet_eq s k _

theorem loadEnv_cfgGet_value (env : String → Option String) :
    ∀ (iter : List (String × CVal)) (s : List (String × CVal))
      (k : String) (d : CVal),
      iter.filter (fun p => p.1 == k) = [(k, d)] →
      cfgGet s k = some d →
      cfgGet (loadFromEnvironment env iter s) k = some (envValueAt env k d) := by
  intro iter
  induction iter with
  | nil => intro s k d hfil _; simp at hfil
  | cons p ps ih =>
    intro s k d hfil hs
    by_cases hp : (p.1 == k) = true
    · have hpk : p.1 = k := by simpa using hp
      simp only [List.filter_cons, hp, if_true] at hfil
      have hhead : p = (k, d) := (List.cons_eq_cons.mp hfil).1
      have htail : ps.filter (fun p => p.1 == k) = [] :=
        (List.cons_eq_cons.mp hfil).2
      have hnot : ps.all (fun q => !(q.1 == k)) = true := by
        rw [List.all_eq_true]
        intro x hx
        rw [List.filter_eq_nil_iff] at htail
        simpa using htail x hx
      show cfgGet (loadFromEnvironment env ps (envStep env s p.1 p.2)) k = _
      rw [loadEnv_cfgGet_notin env ps _ k hnot, hhead]
      unfold envStep envValueAt
      cases henv : env (envKeyOf k) with
      | none => exact hs
      | some ev => exact envApply_cfgGet_eq s k d ev hs
    · have hpf : (p.1 == k) = false := Bool.eq_false_iff.mpr hp
      simp only [List.filter_cons, hpf, Bool.false_eq_true, if_false] at hfil
      show cfgGet (loadFromEnvironment env ps (envStep env s p.1 p.2)) k = _
      apply ih _ k d hfil
      rw [envStep_cfgGet_ne env s p.1 k p.2 (by
        intro hh; rw [hh] at hp; simp at hp)]
      exact hs

theorem applyConfEntry_cfgGet_ne (s : List (String × CVal)) (e : String × String)
    (k : String) (h : ¬ (k = e.1)) :
    cfgGet (applyConfEntry s e) k = cfgGet s k := by
  unfold applyConfEntry
  cases hc : cfgGet s e.1 with
  | none => rfl
  | some cv =>
    cases cv with
    | b bv => exact cfgGet_cfgSet_ne s e.1 k _ h
    | i iv =>
      cases pyIntOf e.2 with
      | none => rfl
      | some n => exact cfgGet_cfgSet_ne s e.1 k _ h

theorem foldl_applyConf_value :
    ∀ (entries : List (String × String)) (s : List (String × CVal))
      (k : String) (cur : CVal),
      cfgGet s k = some cur →
      cfgGet (entries.foldl applyConfEntry s) k =
        some (confValueAt entries k cur) := by
  intro entries
  induction entries with
  | nil => intro s k cur h; exact h
  | cons e es ih =>
    intro s k cur h
    rw [List.foldl_cons]
    by_cases he : e.1 = k
    · subst he
      rw [confValueAt_cons_eq]
      apply ih
      cases cur with
      | b bv =>
        unfold applyConfEntry parsedByType
        rw [h]
        exact cfgGet_cfgSet_eq s e.1 _
      | i iv =>
        unfold applyConfEntry parsedByType
        rw [h]
        cases hpi : pyIntOf e.2 with
        | some n => exact cfgGet_cfgSet_eq s e.1 _
        | none => exact h
    · rw [confValueAt_cons_ne e es k cur he]
      apply ih
      rw [applyConfEntry_cfgGet_ne s e k (fun hh => he hh.symm)]
      exact h

/-- C5 amended: the precedence is the reverse of the claim.  For every
configuration key (with its default value), the value in effect after
`MigrationConfig.__init__` is the config-file entries applied last, in file
order, over the environment-resolved value, over the default — so a key set
both through the environment and through `migration.conf` takes the config
file's value, a key set only in the environment takes the environment's, and
otherwise the default stands. -/
theorem C5_amended_precedence (env : String → Option String)
    (confLines : List String) (k : String) (d : CVal)
    (hk : (k, d) ∈ cfgDefaults) :
    cfgGet (migrationConfigInit env confLines) k =
      some (confValueAt (confLines.filterMap parseConfLine) k
        (envValueAt env k d)) := by
  have hboth : cfgGet cfgDefaults k = some d ∧
      cfgDefaults.filter (fun p => p.1 == k) = [(k, d)] := by
    simp only [cfgDefaults, List.mem_cons, List.not_mem_nil, or_false] at hk
    rcases hk with h | h | h | h | h | h | h | h <;>
      (rw [Prod.mk.injEq] at h
       obtain ⟨rfl, rfl⟩ := h
       exact ⟨by decide, by decide⟩)
  have henv := loadEnv_cfgGet_value env cfgDefaults cfgDefaults k d
    hboth.2 hboth.1
  unfold migrationConfigInit loadFromConfigFile
  exact foldl_applyConf_value (confLines.filterMap parseConfLine) _ k _ henv

/-- Witness for the amended C5 precedence: the counterexample inputs (a
boolean key set in both sources) and an integer key set only in the file. -/
theorem C5_amended_witness :
    cfgGet (migrationConfigInit exEnvC5 exConfC5) "auto_backup" =
      some (confValueAt (exConfC5.filterMap parseConfLine) "auto_backup"
        (envValueAt exEnvC5 "auto_backup" (CVal.b true))) ∧
    cfgGet (migrationConfigInit exEnvC5 ["backup_retention_days = 30"])
        "backup_retention_days" =
      some (confValueAt
        ((["backup_retention_days = 30"] : List String).filterMap parseConfLine)
        "backup_retention_days"
        (envValueAt exEnvC5 "backup_retention_days" (CVal.i 7))) :=
  ⟨C5_amended_precedence exEnvC5 exConfC5 "auto_backup" (CVal.b true)
      (by decide),
    C5_amended_precedence exEnvC5 ["backup_retention_days = 30"]
      "backup_retention_days" (CVal.i 7) (by decide)⟩

/-!
Claim C3: `TaskRelationshipAnalyzer._build_task_clusters` and the
workstream structure built from its clusters
(`core/relationship_aware_migration.py`).  Python dict and set iteration is
modeled in input order; the counterexample below keeps every such collection
at most a singleton, so no unspecified-order behavior is involved.
-/

/-- Python `s.startswith(pre)` for one literal. -/
def strStarts (s pre : String) : Bool := decide (pre.data <+: s.data)

/-- Python `task_id.startswith(('phase_', 'root_'))`. -/
def isSyntheticId (s : String) : Bool :=
  strStarts s "phase_" || strStarts s "root_"

/-- All task ids of the input (the keys of `self.tasks`; ids are unique). -/
def taskIds (ts : List TaskRow) : List String := ts.map (fun t => t.task_id)

/-- `_build_relationship_maps`, parent side: for every non-phase task whose
parent is neither a phase nor a root node, one child-to-parent edge, in task
order (the insertion order of `children_map`). -/
def parentEdges (ts : List TaskRow) : List (String × String) :=
  ts.filterMap (fun t =>
    if strStarts t.task_id "phase_" then none
    else match t.parent_task with
      | some p =>
        if !(strStarts p "phase_" || strStarts p "root_") then
          some (t.task_id, p)
        else none
      | none => none)

/-- `children_map[tid]` in insertion order. -/
def childrenOf (ts : List TaskRow) (tid : String) : List String :=
  (parentEdges ts).filterMap (fun e => if e.2 == tid then some e.1 else none)

/-- `dependency_map[tid]`: declared dependencies of a non-phase task that
exist in the task table. -/
def depsOf (ts : List TaskRow) (tid : String) : List String :=
  match ts.find? (fun t => t.task_id == tid) with
  | some t =>
    if strStarts t.task_id "phase_" then []
    else t.depends_on_tasks.filter (fun d => (taskIds ts).contains d)
  | none => []

/-- The reverse-dependency walk of `_collect_related_tasks`: tasks whose
dependency set contains `tid`, in `dependency_map` iteration order. -/
def dependentsOf (ts : List TaskRow) (tid : String) : List String :=
  ts.filterMap (fun o =>
    if strStarts o.task_id "phase_" then none
    else if (depsOf ts o.task_id).contains tid then some o.task_id
    else none)

/-- `_identify_root_tasks`: a non-synthetic task is a root when it has no
parent, its parent is cancelled, its parent is a synthetic node, or its
parent does not exist. -/
def rootTasks (ts : List TaskRow) : List String :=
  ts.filterMap (fun t =>
    if isSyntheticId t.task_id then none
    else match t.parent_task with
      | none => some t.task_id
      | some p =>
        let parentCancelled :=
          match ts.find? (fun q => q.task_id == p) with
          | some q => q.status == "cancelled"
          | none => false
        if parentCancelled || isSyntheticId p || !((taskIds ts).contains p) then
          some t.task_id
        else none)

/-- `_collect_related_tasks` with explicit fuel (the recursion consumes one
unvisited task per productive call, so `ts.length + 1` fuel never runs out):
add the task to the cluster and the visited set, then recurse over children,
dependencies and dependents; the dependents loop re-checks visited at
iteration time as the source does. -/
def collectRelated (ts : List TaskRow) :
    Nat → String → List String × List String → List String × List String
  | 0, _, st => st
  | fuel + 1, tid, (cluster, visited) =>
    if visited.contains tid || isSyntheticId tid then (cluster, visited)
    else
      let st0 := (cluster ++ [tid], visited ++ [tid])
      let st1 := (childrenOf ts tid).foldl
        (fun st c => collectRelated ts fuel c st) st0
      let st2 := (depsOf ts tid).foldl
        (fun st d => collectRelated ts fuel d st) st1
      (dependentsOf ts tid).foldl
        (fun st o => if st.2.contains o then st else collectRelated ts fuel o st)
        st2

/-- Python dict assignment on the ordered `clusters` dict: replace in place
on key collision, append otherwise. -/
def dictInsert (d : List (String × List String)) (k : String)
    (v : List String) : List (String × List String) :=
  if d.any (fun p => p.1 == k) then
    d.map (fun p => if p.1 == k then (k, v) else p)
  else d ++ [(k, v)]

/-- The non-synthetic task ids (`all_regular_tasks`). -/
def regularTaskIds (ts : List TaskRow) : List String :=
  (taskIds ts).filter (fun i => !isSyntheticId i)

/-- One pass of cluster creation shared by the root pass and the
disconnected pass: skip visited seeds, collect a cluster from each remaining
seed, store nonempty clusters under the given id form. -/
def clusterPass (ts : List TaskRow) (fuel : Nat) (idOf : String → String)
    (seeds : List String) (start : List (String × List String) × List String) :
    List (String × List String) × List String :=
  seeds.foldl
    (fun st seed =>
      if st.2.contains seed then st
      else
        let out := collectRelated ts fuel seed ([], st.2)
        if out.1.isEmpty then (st.1, out.2)
        else (dictInsert st.1 (idOf seed) out.1, out.2))
    start

/-- `_build_task_clusters`: clusters from roots (`cluster_<root>`), then from
tasks left unvisited (`cluster_disconnected_<task>`), then a final
`cluster_uncategorized` catch-all for anything still unvisited. -/
def buildTaskClusters (ts : List TaskRow) : List (String × List String) :=
  let fuel := ts.length + 1
  let st1 := clusterPass ts fuel (fun r => "cluster_" ++ r) (rootTasks ts) ([], [])
  let unvisited := (regularTaskIds ts).filter (fun i => !st1.2.contains i)
  let st2 := clusterPass ts fuel (fun t => "cluster_disconnected_" ++ t)
    unvisited st1
  let finalUnvisited := (regularTaskIds ts).filter (fun i => !st2.2.contains i)
  if finalUnvisited.isEmpty then st2.1
  else dictInsert st2.1 "cluster_uncategorized" finalUnvisited

/-- The tasks covered by the clusters — exactly the ids
`create_workstream_structure` places into `task_assignments` (each cluster
lands in one consolidated workstream, so the union of cluster members is the
set of assigned tasks the reorganizer's own final check compares against all
regular ids). -/
def clustersUnion (clusters : List (String × List String)) : List String :=
  clusters.foldr (fun p acc => p.2 ++ acc) []

/-- Failing input for C3: a root task named `disconnected_a` and a
self-parented task `a` (a parent cycle, which the reorganizer is documented
to tolerate).  The root pass stores `disconnected_a` under the key
`cluster_disconnected_a`; the disconnected pass computes the same key for
`a` and the dict assignment overwrites the first cluster. -/
def exTasksC3 : List TaskRow :=
  [ { task_id := "disconnected_a", status := "pending" },
    { task_id := "a", status := "pending", parent_task := some "a" } ]

/-- C3 (code bug): after cluster construction on the failing input, task
`disconnected_a` belongs to no cluster at all — the code's own
`all_task_ids != assigned_ids` guard (commented `This should never happen`)
fires and the task is left orphaned, contradicting the claim that every
regular task is assigned to exactly one cluster and no task is orphaned. -/
theorem C3_cluster_collision_bug :
    buildTaskClusters exTasksC3 = [("cluster_disconnected_a", ["a"])] ∧
    "disconnected_a" ∈ regularTaskIds exTasksC3 ∧
    "disconnected_a" ∉ clustersUnion (buildTaskClusters exTasksC3) := by
  refine ⟨by decide, by decide, by decide⟩
